import Mathlib

/-!
Verification of the party-parrot Director core.

This file is a shallow embedding, in Lean 4, of the parts of the repository
that the verified properties talk about:

  * `parrot/director/director.py` — the `Director` class: interpreter
    generation, the shift scheduler embedded in `Director.step`, the
    single-group reshuffle `shift_interpreter`, the signal-coverage
    guarantor `ensure_each_signal_is_enabled`, and `deploy_hype`;
  * `parrot/api/web_server.py` — the hype deploy/status endpoints;
  * `parrot/utils/dmx_utils.py` — `dmx_clamp`.

Modelling conventions:

  * Python floats are modelled as exact rationals (`ℚ`); where NaN and the
    infinities matter (`dmx_clamp`) the input type is extended explicitly.
  * Randomness (`random.randint`, `random.choice`) is modelled by explicit
    numeric draws passed as arguments; a draw `r` selects index
    `r % length`, so every index a uniform draw could produce is covered by
    the universally quantified theorems.
  * Python exceptions in the modelled code paths (IndexError,
    `random.randint` on an empty range, AttributeError) are modelled with
    `Option`: `none` means the call raises.
  * Types the modelled code treats opaquely (the mode enumeration, fixture
    groups) are type parameters `M` and `G`; the external interpreter
    factory `get_interpreter` is a function parameter `gi`.
-/

/-- Modelled from the spec: `parrot/director/frame.py` is not included in the
sources. The spec fixes an immutable enumeration of named control channels
including a sustained low-frequency energy channel; only `sustained_low` is
referenced by the modelled code, the remaining members stand for "the
others". -/
inductive FrameSignal : Type where
  | freq_all
  | freq_high
  | freq_low
  | sustained_low
  | sustained_high
  | strobe
  | big_blinder
  | pulse
deriving DecidableEq, Repr

/-- The members of `FrameSignal` in declaration order, as Python's
`for signal in FrameSignal:` iterates them. -/
def FrameSignal.all : List FrameSignal :=
  [.freq_all, .freq_high, .freq_low, .sustained_low, .sustained_high,
   .strobe, .big_blinder, .pulse]

/-- Modelled from the spec: a `Frame` maps every `Signal` to its current
intensity; uniform scalar scaling (`frame * warmup_phase`) multiplies every
intensity. -/
def Frame : Type := FrameSignal → ℚ

/-- Uniform scalar scaling of a frame, `frame * phase` in
`Director.step`. -/
def frameScale (f : Frame) (phase : ℚ) : Frame := fun s => f s * phase

/-- Modelled from the spec: `InterpreterArgs` (`parrot/interpreters/base.py`,
not included) is a value object `{hype, allow_rainbows, hype_min, hype_max}`;
`director.py` constructs it positionally in this field order. -/
structure InterpreterArgs where
  hype : ℚ
  allow_rainbows : Bool
  hype_min : ℚ
  hype_max : ℚ
deriving DecidableEq, Repr

/-- Modelled from the spec: the observable interface of an interpreter as
far as the Director's coverage logic sees it.  `has_signal_switch` models
`hasattr(i, "responds_to") and hasattr(i, "set_enabled")` (the signal-switch
capability); `responds_to` models the dict lookup
`i.responds_to.get(signal, False)`. -/
structure Interp where
  has_signal_switch : Bool
  responds_to : FrameSignal → Bool

/-- Modelled from the spec: the signal-switch capability's
`set_enabled(signal, value)` force-enables (or disables) handling of one
signal, leaving the others unchanged. -/
def set_enabled (i : Interp) (s : FrameSignal) (b : Bool) : Interp :=
  { i with responds_to := fun s0 => if s0 = s then b else i.responds_to s0 }

/-- Modelled from the spec: the fields of the external `State` object
(`parrot/state.py`, not included) that `director.py` reads:
`state.mode`, `state.theme.allow_rainbows`, `state.hype`,
`state.hype_limiter`. -/
structure StateModel (M : Type) where
  mode : M
  allow_rainbows : Bool
  hype : ℚ
  hype_limiter : Bool

/-- `SHIFT_AFTER = 60` (director.py line 31). -/
def SHIFT_AFTER : ℚ := 60

/-- `HYPE_BUCKETS = [10, 40, 70]` (director.py line 34). -/
def HYPE_BUCKETS : List ℚ := [10, 40, 70]

/-- The `InterpreterArgs` built for the group at index `idx` inside
`Director.generate_interpreters` (director.py lines 155-164). -/
def genArgs {M : Type} (st : StateModel M) (idx : Nat) : InterpreterArgs :=
  { hype := HYPE_BUCKETS.getD (idx % HYPE_BUCKETS.length) 0
    allow_rainbows := st.allow_rainbows
    hype_min := if ¬st.hype_limiter then 0 else max 0 (st.hype - 30)
    hype_max := if ¬st.hype_limiter then 100 else min 100 (st.hype + 30) }

/-- The list comprehension of `Director.generate_interpreters`
(director.py lines 151-167): `enumerate` is modelled by the explicit index
accumulator. -/
def genFrom {G M : Type} (gi : M → G → InterpreterArgs → Interp)
    (st : StateModel M) : Nat → List G → List Interp
  | _, [] => []
  | idx, g :: gs => gi st.mode g (genArgs st idx) :: genFrom gi st (idx + 1) gs

/-- `Director.generate_interpreters` as a pure function from the fixture
groups to the new interpreter list. -/
def generate_interpreters {G M : Type} (gi : M → G → InterpreterArgs → Interp)
    (st : StateModel M) (fixture_groups : List G) : List Interp :=
  genFrom gi st 0 fixture_groups

/-- The hype bracket computed inside `Director.shift_interpreter`
(director.py lines 198-201). -/
def shiftArgs {M : Type} (st : StateModel M) : InterpreterArgs :=
  { hype := st.hype
    allow_rainbows := st.allow_rainbows
    hype_min := if ¬st.hype_limiter then 0 else max 0 (st.hype - 30)
    hype_max := if ¬st.hype_limiter then 100 else min 100 (st.hype + 30) }

/-- `Director.shift_interpreter` (director.py lines 194-212) as a function
of the random draw `r`: `random.randint(0, len - 1)` raises `ValueError`
on an empty interpreter list (modelled by `none`); otherwise the drawn
index is `r % len` and `self.fixture_groups[eviction_index]` raises
`IndexError` (again `none`) when the groups list is too short. -/
def shift_interpreter {G M : Type} (gi : M → G → InterpreterArgs → Interp)
    (st : StateModel M) (fixture_groups : List G) (interpreters : List Interp)
    (r : Nat) : Option (List Interp) :=
  if interpreters.length = 0 then
    none
  else
    let eviction_index := r % interpreters.length
    match fixture_groups[eviction_index]? with
    | none => none
    | some eviction_group =>
        some (interpreters.set eviction_index
          (gi st.mode eviction_group (shiftArgs st)))

/-- Whether the interpreter stored at position `j` currently responds to
`s` (`False` when the position does not exist). -/
def respondsAt (l : List Interp) (j : Nat) (s : FrameSignal) : Bool :=
  (l[j]?.map (fun i => i.responds_to s)).getD false

/-- Whether the interpreter stored at position `j` carries the
signal-switch capability (`False` when the position does not exist). -/
def hasSwitchAt (l : List Interp) (j : Nat) : Bool :=
  (l[j]?.map (fun i => i.has_signal_switch)).getD false

/-- The positions of the interpreters carrying the signal-switch
capability.  `Director.ensure_each_signal_is_enabled` collects the
corresponding object references once, up front (director.py lines
218-222); positions model those aliased references. -/
def switchIndices (l : List Interp) : List Nat :=
  (List.range l.length).filter (fun j => hasSwitchAt l j)

/-- `any(i.responds_to.get(signal, False) for i in signal_switches)`
(director.py line 227), over the snapshot positions `idxs`. -/
def coveredOn (l : List Interp) (idxs : List Nat) (s : FrameSignal) : Bool :=
  idxs.any (fun j => respondsAt l j s)

/-- `random.choice(signal_switches).set_enabled(signal, True)`
(director.py line 228): the draw `pk` selects position
`idxs[pk % len idxs]` and force-enables `s` there. -/
def repairOne (idxs : List Nat) (pk : Nat) (s : FrameSignal)
    (l : List Interp) : List Interp :=
  match idxs[pk % idxs.length]? with
  | none => l
  | some j =>
      match l[j]? with
      | none => l
      | some i => l.set j (set_enabled i s true)

/-- The body of the `for signal in FrameSignal:` loop (director.py lines
226-228). -/
def ensureStep (idxs : List Nat) (pick : FrameSignal → Nat)
    (l : List Interp) (s : FrameSignal) : List Interp :=
  if coveredOn l idxs s then l else repairOne idxs (pick s) s l

/-- `Director.ensure_each_signal_is_enabled` (director.py lines 214-228):
returns early when no interpreter has the signal-switch capability,
otherwise loops over every signal repairing uncovered ones. -/
def ensure_each_signal_is_enabled (pick : FrameSignal → Nat)
    (l : List Interp) : List Interp :=
  let idxs := switchIndices l
  if idxs = [] then l
  else FrameSignal.all.foldl (ensureStep idxs pick) l

/-- A signal is covered when some interpreter with the signal-switch
capability responds to it (invariant I3 of the spec). -/
def coveredb (l : List Interp) (s : FrameSignal) : Bool :=
  l.any (fun i => i.has_signal_switch && i.responds_to s)

/-- The `Director` state that the verified properties observe.  Colour
scheme animation, the VJ collaborator and the position manager are
orthogonal to every property below and are not tracked.  `mode_machine`
models the presence of the `self.mode_machine` attribute (`none` =
attribute absent, so that reading it raises `AttributeError`);
`last_frame` likewise models `self.last_frame`, first assigned in
`Director.step`. -/
structure Director (G M : Type) where
  interpreters : List Interp
  fixture_groups : List G
  last_shift_time : ℚ
  shift_count : Nat
  start_time : ℚ
  last_frame : Option Frame
  mode_machine : Option Unit

/-- `Director.__init__` (director.py lines 42-61) as far as the tracked
state goes: `last_shift_time` and `start_time` are both `time.time()` at
construction (modelled by the same `t0`), `setup_patch` groups the
fixtures (the resulting partition is the parameter `gs`) and calls
`generate_all`, which calls `generate_interpreters` — and nothing ever
assigns `self.mode_machine` or `self.last_frame`. -/
def Director.init {G M : Type} (gi : M → G → InterpreterArgs → Interp)
    (st : StateModel M) (gs : List G) (t0 : ℚ) : Director G M :=
  { interpreters := generate_interpreters gi st gs
    fixture_groups := gs
    last_shift_time := t0
    shift_count := 0
    start_time := t0
    last_frame := none
    mode_machine := none }

/-- The `generate_interpreters` method's effect on the Director
(director.py lines 149-169): replace the interpreter list, nothing else. -/
def Director.regenerate {G M : Type} (gi : M → G → InterpreterArgs → Interp)
    (st : StateModel M) (d : Director G M) : Director G M :=
  { d with interpreters := generate_interpreters gi st d.fixture_groups }

/-- `Director.generate_all` (director.py lines 171-177): calls
`generate_interpreters` and then only shifts the (untracked) VJ
director. -/
def Director.generate_all {G M : Type} (gi : M → G → InterpreterArgs → Interp)
    (st : StateModel M) (d : Director G M) : Director G M :=
  Director.regenerate gi st d

/-- `Director.on_mode_change` (director.py lines 330-335): regenerates
the lighting interpreters from the (already updated) state and prints. -/
def Director.on_mode_change {G M : Type} (gi : M → G → InterpreterArgs → Interp)
    (st : StateModel M) (d : Director G M) : Director G M :=
  Director.regenerate gi st d

/-- The random draws a single shift can consume: `evict` for
`random.randint` in `shift_interpreter`, `pick` for the `random.choice`
calls of the coverage guarantor. -/
structure ShiftRand where
  evict : Nat
  pick : FrameSignal → Nat

/-- `Director.shift` (director.py lines 266-280): colour-scheme partial
shift (untracked), single-group reshuffle, coverage guarantee, VJ shift
(untracked), then reset `last_shift_time` to the current time and bump
`shift_count`.  `none` models the exception propagating out of
`shift_interpreter`. -/
def Director.shift {G M : Type} (gi : M → G → InterpreterArgs → Interp)
    (st : StateModel M) (now : ℚ) (rnd : ShiftRand) (d : Director G M) :
    Option (Director G M) :=
  match shift_interpreter gi st d.fixture_groups d.interpreters rnd.evict with
  | none => none
  | some l =>
      some { d with
        interpreters := ensure_each_signal_is_enabled rnd.pick l
        last_shift_time := now
        shift_count := d.shift_count + 1 }

/-- `Director.shift_lighting_only` (director.py lines 230-259): new colour
scheme (untracked), full interpreter regeneration, coverage guarantee,
reset `last_shift_time`, bump `shift_count`. -/
def Director.shift_lighting_only {G M : Type}
    (gi : M → G → InterpreterArgs → Interp) (st : StateModel M) (now : ℚ)
    (pick : FrameSignal → Nat) (d : Director G M) : Director G M :=
  { d with
    interpreters := ensure_each_signal_is_enabled pick
      (generate_interpreters gi st d.fixture_groups)
    last_shift_time := now
    shift_count := d.shift_count + 1 }

/-- `WARMUP_SECONDS` is `max(int(os.environ.get("WARMUP_TIME", "1")), 1)`
(director.py line 32); it is kept as a parameter `W` with `1 ≤ W` where a
theorem needs it, `1` being the default. -/
def warmupPhase (W now start_time : ℚ) : ℚ :=
  min 1 ((now - start_time) / W)

/-- `Director.step` (director.py lines 282-312).  Stores the raw frame in
`last_frame`, scales the frame by the warmup phase, resets fixtures and
steps every interpreter (no effect on the tracked state), and performs the
scheduled combined shift when more than `SHIFT_AFTER` seconds have passed
since `last_shift_time` and the *scaled* sustained-low intensity is below
0.2 (an exact `1/5` here, the float literal `0.2` of the source). -/
def Director.step {G M : Type} (gi : M → G → InterpreterArgs → Interp)
    (st : StateModel M) (W now : ℚ) (rnd : ShiftRand) (d : Director G M)
    (f : Frame) : Option (Director G M) :=
  if SHIFT_AFTER < now - d.last_shift_time ∧
      frameScale f (warmupPhase W now d.start_time) FrameSignal.sustained_low
        < 1/5 then
    Director.shift gi st now rnd { d with last_frame := some f }
  else
    some { d with last_frame := some f }

/-- `Director.deploy_hype` (director.py lines 327-328):
`self.mode_machine.deploy_hype(self.last_frame)`.  The attribute reads
raise `AttributeError` when unset (`none`); on success the forwarded frame
is returned. -/
def Director.deploy_hype {G M : Type} (d : Director G M) : Option Frame :=
  match d.mode_machine with
  | none => none
  | some _ =>
      match d.last_frame with
      | none => none
      | some f => some f

/-- `HYPE_DURATION = 8` (web_server.py line 22). -/
def HYPE_DURATION : ℚ := 8

/-- The response of `GET /api/hype/status`. -/
structure HypeStatus where
  active : Bool
  remaining : ℚ
deriving DecidableEq, Repr

/-- `get_hype_status` (web_server.py lines 117-130), a pure function of
the recorded `last_hype_time` and the current time. -/
def get_hype_status (last_hype_time now : ℚ) : HypeStatus :=
  let elapsed := now - last_hype_time
  if elapsed < HYPE_DURATION then
    { active := true, remaining := HYPE_DURATION - elapsed }
  else
    { active := false, remaining := 0 }

/-- A Python float as `dmx_clamp` can receive it: NaN, the two infinities,
or a finite value (modelled exactly as a rational). -/
inductive PyFloat : Type where
  | nan
  | inf
  | ninf
  | val (q : ℚ)
deriving DecidableEq, Repr

/-- Python `int()` on a finite float: truncation toward zero. -/
def pyInt (q : ℚ) : ℤ :=
  if 0 ≤ q then ⌊q⌋ else -⌊-q⌋

/-- Modelled from the spec: `clamp` from `parrot/utils/math.py` (not
included) bounds its argument into `[lo, hi]`; infinite inputs saturate at
the corresponding bound.  (`dmx_clamp` never passes NaN — it checks
`math.isnan` first — so the NaN row is irrelevant to it.) -/
def clamp (x : PyFloat) (lo hi : ℚ) : ℚ :=
  match x with
  | .nan => lo
  | .inf => hi
  | .ninf => lo
  | .val q => max lo (min q hi)

/-- `dmx_clamp` (dmx_utils.py lines 21-25): `0` for NaN, otherwise
`int(clamp(n, 0, 255))`. -/
def dmx_clamp (n : PyFloat) : ℤ :=
  match n with
  | .nan => 0
  | x => pyInt (clamp x 0 255)

/-! ### Concrete instances used to exercise the theorems -/

/-- An interpreter factory giving every group an interpreter that carries
the signal-switch capability and initially responds to nothing. -/
def giSwitch : Unit → Unit → InterpreterArgs → Interp :=
  fun _ _ _ => { has_signal_switch := true, responds_to := fun _ => false }

/-- An interpreter factory giving interpreters without the signal-switch
capability. -/
def giPlain : Unit → Unit → InterpreterArgs → Interp :=
  fun _ _ _ => { has_signal_switch := false, responds_to := fun _ => false }

/-- A concrete external state: hype limiter off, hype 50, rainbows
allowed. -/
def stU : StateModel Unit :=
  { mode := (), allow_rainbows := true, hype := 50, hype_limiter := false }

/-- The all-zero frame. -/
def fZero : Frame := fun _ => 0

/-- Deterministic stand-ins for the random draws. -/
def rnd0 : ShiftRand := { evict := 0, pick := fun _ => 0 }

/-! ### Lemmas about the signal-coverage guarantor -/

theorem FrameSignal.mem_all (s : FrameSignal) : s ∈ FrameSignal.all := by
  cases s <;> simp [FrameSignal.all]

theorem mem_switchIndices {l : List Interp} {j : Nat} :
    j ∈ switchIndices l ↔ j < l.length ∧ hasSwitchAt l j = true := by
  simp [switchIndices, List.mem_filter, List.mem_range]

theorem any_switch_iff (l : List Interp) :
    l.any (fun i => i.has_signal_switch) = true ↔
      ∃ j : Nat, j < l.length ∧ hasSwitchAt l j = true := by
  rw [List.any_eq_true]
  constructor
  · rintro ⟨i, hmem, hsw⟩
    obtain ⟨j, hj⟩ := (List.mem_iff_getElem? ..).mp hmem
    refine ⟨j, ?_, ?_⟩
    · by_contra hge
      push_neg at hge
      rw [List.getElem?_eq_none hge] at hj
      exact Option.noConfusion hj
    · simp [hasSwitchAt, hj, hsw]
  · rintro ⟨j, hjl, hsw⟩
    rw [hasSwitchAt] at hsw
    cases hj : l[j]? with
    | none => rw [hj] at hsw; simp at hsw
    | some i =>
        rw [hj] at hsw
        simp at hsw
        exact ⟨i, List.getElem?_mem hj, hsw⟩

theorem switchIndices_eq_nil_of_any_false {l : List Interp}
    (h : l.any (fun i => i.has_signal_switch) = false) :
    switchIndices l = [] := by
  by_contra hne
  obtain ⟨j, hj⟩ := List.exists_mem_of_ne_nil _ hne
  obtain ⟨hjl, hsw⟩ := mem_switchIndices.mp hj
  have : l.any (fun i => i.has_signal_switch) = true :=
    (any_switch_iff l).mpr ⟨j, hjl, hsw⟩
  rw [h] at this
  exact Bool.noConfusion this

theorem switchIndices_ne_nil_of_any_true {l : List Interp}
    (h : l.any (fun i => i.has_signal_switch) = true) :
    switchIndices l ≠ [] := by
  obtain ⟨j, hjl, hsw⟩ := (any_switch_iff l).mp h
  exact List.ne_nil_of_mem (mem_switchIndices.mpr ⟨hjl, hsw⟩)

theorem length_repairOne (idxs : List Nat) (pk : Nat) (s : FrameSignal)
    (l : List Interp) : (repairOne idxs pk s l).length = l.length := by
  rw [repairOne]
  split
  · rfl
  next j heq =>
    split
    · rfl
    next i hi => exact List.length_set l j _

theorem length_ensureStep (idxs : List Nat) (pick : FrameSignal → Nat)
    (l : List Interp) (s : FrameSignal) :
    (ensureStep idxs pick l s).length = l.length := by
  rw [ensureStep]
  split
  · rfl
  · exact length_repairOne idxs (pick s) s l

theorem hasSwitchAt_set_enabled (l : List Interp) (j k : Nat) (i : Interp)
    (s : FrameSignal) (b : Bool) (hi : l[j]? = some i) :
    hasSwitchAt (l.set j (set_enabled i s b)) k = hasSwitchAt l k := by
  rcases eq_or_ne j k with rfl | hne
  · have hlt : j < l.length := by
      by_contra hge
      push_neg at hge
      rw [List.getElem?_eq_none hge] at hi
      exact Option.noConfusion hi
    rw [hasSwitchAt, hasSwitchAt, List.getElem?_set_eq_of_lt _ hlt, hi]
    rfl
  · rw [hasSwitchAt, hasSwitchAt, List.getElem?_set_ne hne]

theorem hasSwitchAt_repairOne (idxs : List Nat) (pk : Nat) (s : FrameSignal)
    (l : List Interp) (k : Nat) :
    hasSwitchAt (repairOne idxs pk s l) k = hasSwitchAt l k := by
  rw [repairOne]
  split
  · rfl
  next j heq =>
    split
    · rfl
    next i hi => exact hasSwitchAt_set_enabled l j k i s true hi

theorem hasSwitchAt_ensureStep (idxs : List Nat) (pick : FrameSignal → Nat)
    (l : List Interp) (s : FrameSignal) (k : Nat) :
    hasSwitchAt (ensureStep idxs pick l s) k = hasSwitchAt l k := by
  rw [ensureStep]
  split
  · rfl
  · exact hasSwitchAt_repairOne idxs (pick s) s l k

theorem respondsAt_monotone (l : List Interp) (j j0 : Nat) (i0 : Interp)
    (s s' : FrameSignal) (hi0 : l[j0]? = some i0)
    (h : respondsAt l j s' = true) :
    respondsAt (l.set j0 (set_enabled i0 s true)) j s' = true := by
  have hlt : j0 < l.length := by
    by_contra hge
    push_neg at hge
    rw [List.getElem?_eq_none hge] at hi0
    exact Option.noConfusion hi0
  rcases eq_or_ne j0 j with rfl | hne
  · have h' : i0.responds_to s' = true := by
      rw [respondsAt, hi0] at h
      exact h
    rw [respondsAt, List.getElem?_set_eq_of_lt _ hlt]
    show (if s' = s then true else i0.responds_to s') = true
    by_cases hss : s' = s
    · simp [hss]
    · simpa [hss] using h'
  · rw [respondsAt, List.getElem?_set_ne hne]
    exact h

theorem coveredOn_repairOne_monotone (idxs : List Nat) (pk : Nat)
    (l : List Interp) (s s' : FrameSignal)
    (h : coveredOn l idxs s' = true) :
    coveredOn (repairOne idxs pk s l) idxs s' = true := by
  rw [repairOne]
  split
  · exact h
  next j0 heq =>
    split
    · exact h
    next i0 hi =>
      rw [coveredOn, List.any_eq_true] at h ⊢
      obtain ⟨j, hjmem, hresp⟩ := h
      exact ⟨j, hjmem, respondsAt_monotone l j j0 i0 s s' hi hresp⟩

theorem coveredOn_ensureStep_monotone (idxs : List Nat)
    (pick : FrameSignal → Nat) (l : List Interp) (s s' : FrameSignal)
    (h : coveredOn l idxs s' = true) :
    coveredOn (ensureStep idxs pick l s) idxs s' = true := by
  rw [ensureStep]
  split
  · exact h
  · exact coveredOn_repairOne_monotone idxs (pick s) l s s' h

theorem coveredOn_repairOne_self (idxs : List Nat) (pk : Nat)
    (s : FrameSignal) (l : List Interp)
    (hne : idxs ≠ []) (hbound : ∀ j ∈ idxs, j < l.length) :
    coveredOn (repairOne idxs pk s l) idxs s = true := by
  have hlen : 0 < idxs.length := List.length_pos.mpr hne
  have hmod : pk % idxs.length < idxs.length := Nat.mod_lt _ hlen
  rw [repairOne]
  split
  next heq => rw [List.getElem?_eq_getElem hmod] at heq; exact Option.noConfusion heq
  next j0 heq =>
    have hj0mem : j0 ∈ idxs := List.getElem?_mem heq
    have hj0lt : j0 < l.length := hbound j0 hj0mem
    split
    next hi => rw [List.getElem?_eq_getElem hj0lt] at hi; exact Option.noConfusion hi
    next i0 hi =>
      rw [coveredOn, List.any_eq_true]
      refine ⟨j0, hj0mem, ?_⟩
      rw [respondsAt, List.getElem?_set_eq_of_lt _ hj0lt]
      show (if s = s then true else i0.responds_to s) = true
      simp

theorem coveredOn_ensureStep_self (idxs : List Nat)
    (pick : FrameSignal → Nat) (l : List Interp) (s : FrameSignal)
    (hne : idxs ≠ []) (hbound : ∀ j ∈ idxs, j < l.length) :
    coveredOn (ensureStep idxs pick l s) idxs s = true := by
  rw [ensureStep]
  split
  · assumption
  · exact coveredOn_repairOne_self idxs (pick s) s l hne hbound

theorem length_foldl_ensureStep (idxs : List Nat) (pick : FrameSignal → Nat)
    (ss : List FrameSignal) (l : List Interp) :
    (ss.foldl (ensureStep idxs pick) l).length = l.length := by
  induction ss generalizing l with
  | nil => rfl
  | cons a ss ih => rw [List.foldl_cons, ih, length_ensureStep]

theorem hasSwitchAt_foldl_ensureStep (idxs : List Nat)
    (pick : FrameSignal → Nat) (ss : List FrameSignal) (l : List Interp)
    (k : Nat) :
    hasSwitchAt (ss.foldl (ensureStep idxs pick) l) k = hasSwitchAt l k := by
  induction ss generalizing l with
  | nil => rfl
  | cons a ss ih => rw [List.foldl_cons, ih, hasSwitchAt_ensureStep]

theorem coveredOn_foldl_monotone (idxs : List Nat) (pick : FrameSignal → Nat)
    (ss : List FrameSignal) (l : List Interp) (s' : FrameSignal)
    (h : coveredOn l idxs s' = true) :
    coveredOn (ss.foldl (ensureStep idxs pick) l) idxs s' = true := by
  induction ss generalizing l with
  | nil => exact h
  | cons a ss ih =>
      rw [List.foldl_cons]
      exact ih _ (coveredOn_ensureStep_monotone idxs pick l a s' h)

theorem coveredOn_foldl_establishes (idxs : List Nat)
    (pick : FrameSignal → Nat) (ss : List FrameSignal) (l : List Interp)
    (hne : idxs ≠ []) (hbound : ∀ j ∈ idxs, j < l.length) :
    ∀ s ∈ ss, coveredOn (ss.foldl (ensureStep idxs pick) l) idxs s = true := by
  induction ss generalizing l with
  | nil => intro s hs; exact absurd hs (List.not_mem_nil s)
  | cons a ss ih =>
      intro s hs
      rw [List.foldl_cons]
      have hbound' : ∀ j ∈ idxs, j < (ensureStep idxs pick l a).length := by
        intro j hj
        rw [length_ensureStep]
        exact hbound j hj
      rcases List.mem_cons.mp hs with rfl | hs'
      · exact coveredOn_foldl_monotone idxs pick ss _ s
          (coveredOn_ensureStep_self idxs pick l s hne hbound)
      · exact ih _ hbound' s hs'

theorem coveredb_of_coveredOn (l0 l : List Interp) (s : FrameSignal)
    (hsw : ∀ k, hasSwitchAt l k = hasSwitchAt l0 k)
    (h : coveredOn l (switchIndices l0) s = true) :
    coveredb l s = true := by
  rw [coveredOn, List.any_eq_true] at h
  obtain ⟨j, hjmem, hresp⟩ := h
  have hj : hasSwitchAt l0 j = true := (mem_switchIndices.mp hjmem).2
  rw [← hsw j] at hj
  rw [respondsAt] at hresp
  rw [hasSwitchAt] at hj
  cases hji : l[j]? with
  | none => rw [hji] at hresp; exact Bool.noConfusion hresp
  | some i =>
      rw [hji] at hresp hj
      simp only [Option.map, Option.getD] at hresp hj
      rw [coveredb, List.any_eq_true]
      exact ⟨i, List.getElem?_mem hji, by simp [hj, hresp]⟩

/-- The coverage guarantor establishes invariant I3: when some interpreter
carries the signal-switch capability, every signal is covered
afterwards. -/
theorem ensure_covers (pick : FrameSignal → Nat) (l : List Interp)
    (h : l.any (fun i => i.has_signal_switch) = true) :
    ∀ s : FrameSignal,
      coveredb (ensure_each_signal_is_enabled pick l) s = true := by
  intro s
  have hne : switchIndices l ≠ [] := switchIndices_ne_nil_of_any_true h
  have hbound : ∀ j ∈ switchIndices l, j < l.length := by
    intro j hj
    exact (mem_switchIndices.mp hj).1
  rw [ensure_each_signal_is_enabled, if_neg hne]
  refine coveredb_of_coveredOn l _ s ?_ ?_
  · intro k
    exact hasSwitchAt_foldl_ensureStep (switchIndices l) pick FrameSignal.all l k
  · exact coveredOn_foldl_establishes (switchIndices l) pick FrameSignal.all l
      hne hbound s (FrameSignal.mem_all s)

/-- The coverage guarantor is a no-op when no interpreter carries the
signal-switch capability. -/
theorem ensure_noop (pick : FrameSignal → Nat) (l : List Interp)
    (h : l.any (fun i => i.has_signal_switch) = false) :
    ensure_each_signal_is_enabled pick l = l := by
  rw [ensure_each_signal_is_enabled]
  rw [if_pos (switchIndices_eq_nil_of_any_false h)]

/-- The coverage guarantor neither adds nor removes the signal-switch
capability anywhere. -/
theorem ensure_any_switch (pick : FrameSignal → Nat) (l : List Interp) :
    (ensure_each_signal_is_enabled pick l).any (fun i => i.has_signal_switch)
      = l.any (fun i => i.has_signal_switch) := by
  cases hb : l.any (fun i => i.has_signal_switch) with
  | false => rw [ensure_noop pick l hb, hb]
  | true =>
      obtain ⟨j, hjl, hsw⟩ := (any_switch_iff l).mp hb
      have hne : switchIndices l ≠ [] := switchIndices_ne_nil_of_any_true hb
      rw [ensure_each_signal_is_enabled, if_neg hne]
      refine (any_switch_iff _).mpr ⟨j, ?_, ?_⟩
      · rw [length_foldl_ensureStep]
        exact hjl
      · rw [hasSwitchAt_foldl_ensureStep]
        exact hsw

/-- The coverage guarantor preserves the length of the interpreter
list. -/
theorem ensure_length (pick : FrameSignal → Nat) (l : List Interp) :
    (ensure_each_signal_is_enabled pick l).length = l.length := by
  rw [ensure_each_signal_is_enabled]
  split
  · rfl
  · exact length_foldl_ensureStep (switchIndices l) pick FrameSignal.all l

/-! ### Lemmas about interpreter generation and the reshuffle -/

theorem length_genFrom {G M : Type} (gi : M → G → InterpreterArgs → Interp)
    (st : StateModel M) (k : Nat) (gs : List G) :
    (genFrom gi st k gs).length = gs.length := by
  induction gs generalizing k with
  | nil => rfl
  | cons g gs ih => rw [genFrom, List.length_cons, List.length_cons, ih]

theorem getElem?_genFrom {G M : Type} (gi : M → G → InterpreterArgs → Interp)
    (st : StateModel M) (k i : Nat) (gs : List G) :
    (genFrom gi st k gs)[i]?
      = gs[i]?.map (fun g => gi st.mode g (genArgs st (k + i))) := by
  induction gs generalizing k i with
  | nil => simp [genFrom]
  | cons g gs ih =>
      cases i with
      | zero => simp [genFrom]
      | succ i =>
          rw [genFrom]
          simp only [List.getElem?_cons_succ]
          rw [ih (k + 1) i]
          have : k + 1 + i = k + (i + 1) := by omega
          rw [this]

theorem length_generate_interpreters {G M : Type}
    (gi : M → G → InterpreterArgs → Interp) (st : StateModel M)
    (gs : List G) :
    (generate_interpreters gi st gs).length = gs.length :=
  length_genFrom gi st 0 gs

theorem getElem?_generate_interpreters {G M : Type}
    (gi : M → G → InterpreterArgs → Interp) (st : StateModel M)
    (gs : List G) (i : Nat) :
    (generate_interpreters gi st gs)[i]?
      = gs[i]?.map (fun g => gi st.mode g (genArgs st i)) := by
  rw [generate_interpreters, getElem?_genFrom]
  rw [Nat.zero_add]

theorem shift_interpreter_spec {G M : Type}
    (gi : M → G → InterpreterArgs → Interp) (st : StateModel M)
    (gs : List G) (l : List Interp) (r : Nat)
    (hne : l ≠ []) (hlen : gs.length = l.length) :
    ∃ g, gs[r % l.length]? = some g ∧
      shift_interpreter gi st gs l r
        = some (l.set (r % l.length) (gi st.mode g (shiftArgs st))) := by
  have hpos : 0 < l.length := List.length_pos.mpr hne
  have hidx : r % l.length < l.length := Nat.mod_lt _ hpos
  have hidxg : r % l.length < gs.length := by rw [hlen]; exact hidx
  refine ⟨gs[r % l.length], List.getElem?_eq_getElem hidxg, ?_⟩
  rw [shift_interpreter, if_neg (Nat.pos_iff_ne_zero.mp hpos)]
  simp only [List.getElem?_eq_getElem hidxg]

theorem shift_spec {G M : Type} (gi : M → G → InterpreterArgs → Interp)
    (st : StateModel M) (now : ℚ) (rnd : ShiftRand) (d : Director G M)
    (hne : d.interpreters ≠ [])
    (hlen : d.fixture_groups.length = d.interpreters.length) :
    ∃ g, d.fixture_groups[rnd.evict % d.interpreters.length]? = some g ∧
      Director.shift gi st now rnd d = some
        { d with
          interpreters := ensure_each_signal_is_enabled rnd.pick
            (d.interpreters.set (rnd.evict % d.interpreters.length)
              (gi st.mode g (shiftArgs st)))
          last_shift_time := now
          shift_count := d.shift_count + 1 } := by
  obtain ⟨g, hg, hsome⟩ :=
    shift_interpreter_spec gi st d.fixture_groups d.interpreters rnd.evict
      hne hlen
  refine ⟨g, hg, ?_⟩
  rw [Director.shift, hsome]

/-! ### Lemmas about the shift scheduler in `Director.step` -/

theorem warmupPhase_eq_one (W now start_time : ℚ) (hW : 0 < W)
    (h : W ≤ now - start_time) : warmupPhase W now start_time = 1 := by
  rw [warmupPhase]
  exact min_eq_left ((one_le_div hW).mpr h)

theorem step_gate_iff {G M : Type} (W now : ℚ) (d : Director G M) (f : Frame)
    (hW1 : 1 ≤ W) (hW60 : W ≤ SHIFT_AFTER)
    (hst : d.start_time ≤ d.last_shift_time) :
    (SHIFT_AFTER < now - d.last_shift_time ∧
        frameScale f (warmupPhase W now d.start_time) FrameSignal.sustained_low
          < 1/5)
      ↔ (SHIFT_AFTER < now - d.last_shift_time ∧
          f FrameSignal.sustained_low < 1/5) := by
  have hW0 : 0 < W := lt_of_lt_of_le one_pos hW1
  constructor
  · rintro ⟨ht, hs⟩
    refine ⟨ht, ?_⟩
    have hphase : warmupPhase W now d.start_time = 1 := by
      refine warmupPhase_eq_one W now d.start_time hW0 ?_
      have h60 : SHIFT_AFTER < now - d.start_time := by
        have := sub_le_sub_left hst now
        calc SHIFT_AFTER < now - d.last_shift_time := ht
          _ ≤ now - d.start_time := by
            exact sub_le_sub_left hst now
      linarith [hW60]
    rw [hphase] at hs
    have : frameScale f 1 FrameSignal.sustained_low
        = f FrameSignal.sustained_low := by
      rw [frameScale]
      exact mul_one _
    rw [this] at hs
    exact hs
  · rintro ⟨ht, hs⟩
    refine ⟨ht, ?_⟩
    have hphase : warmupPhase W now d.start_time = 1 := by
      refine warmupPhase_eq_one W now d.start_time hW0 ?_
      have h60 : SHIFT_AFTER < now - d.start_time := by
        calc SHIFT_AFTER < now - d.last_shift_time := ht
          _ ≤ now - d.start_time := sub_le_sub_left hst now
      linarith [hW60]
    rw [hphase]
    show f FrameSignal.sustained_low * 1 < 1/5
    rw [mul_one]
    exact hs

theorem mode_machine_shift {G M : Type}
    (gi : M → G → InterpreterArgs → Interp) (st : StateModel M) (now : ℚ)
    (rnd : ShiftRand) (d : Director G M) (d' : Director G M)
    (h : Director.shift gi st now rnd d = some d') :
    d'.mode_machine = d.mode_machine := by
  rw [Director.shift] at h
  split at h
  · exact Option.noConfusion h
  · rw [← Option.some.inj h]

theorem mode_machine_step {G M : Type}
    (gi : M → G → InterpreterArgs → Interp) (st : StateModel M)
    (W now : ℚ) (rnd : ShiftRand) (d : Director G M) (f : Frame)
    (d' : Director G M)
    (h : Director.step gi st W now rnd d f = some d') :
    d'.mode_machine = d.mode_machine := by
  rw [Director.step] at h
  split at h
  · exact mode_machine_shift gi st now rnd { d with last_frame := some f } d' h
  · rw [← Option.some.inj h]

theorem deploy_hype_eq_none_of_no_machine {G M : Type} (d : Director G M)
    (h : d.mode_machine = none) : Director.deploy_hype d = none := by
  rw [Director.deploy_hype, h]

/-! ### The verified claims -/

theorem pyInt_of_nonneg (q : ℚ) (h : 0 ≤ q) : pyInt q = ⌊q⌋ := if_pos h

theorem floor_255 : ⌊(255 : ℚ)⌋ = 255 := by norm_num

/-- C10: `dmx_clamp` is total and always returns an integer in `[0, 255]`:
NaN maps to `0`, any finite value below `0` maps to `0`, any finite value
above `255` maps to `255`, and in-range values are truncated to int — no
input produces an out-of-range DMX channel value. -/
theorem C10_dmx_clamp_total (n : PyFloat) :
    (0 ≤ dmx_clamp n ∧ dmx_clamp n ≤ 255)
    ∧ (n = PyFloat.nan → dmx_clamp n = 0)
    ∧ (∀ q : ℚ, n = PyFloat.val q →
        (q < 0 → dmx_clamp n = 0)
        ∧ (255 < q → dmx_clamp n = 255)
        ∧ (0 ≤ q → q ≤ 255 → dmx_clamp n = pyInt q)) := by
  refine ⟨?_, ?_, ?_⟩
  · cases n with
    | nan => exact ⟨le_refl 0, by norm_num [dmx_clamp]⟩
    | inf =>
        have h : dmx_clamp PyFloat.inf = 255 := by
          show pyInt (clamp PyFloat.inf 0 255) = 255
          rw [show clamp PyFloat.inf 0 255 = 255 from rfl]
          rw [pyInt_of_nonneg _ (by norm_num), floor_255]
        rw [h]
        exact ⟨by norm_num, le_refl 255⟩
    | ninf =>
        have h : dmx_clamp PyFloat.ninf = 0 := by
          show pyInt (clamp PyFloat.ninf 0 255) = 0
          rw [show clamp PyFloat.ninf 0 255 = 0 from rfl]
          rw [pyInt_of_nonneg _ (by norm_num)]
          norm_num
        rw [h]
        exact ⟨le_refl 0, by norm_num⟩
    | val q =>
        have hc : dmx_clamp (PyFloat.val q) = pyInt (max 0 (min q 255)) := rfl
        have h0 : (0 : ℚ) ≤ max 0 (min q 255) := le_max_left 0 _
        have h255 : max 0 (min q 255) ≤ 255 :=
          max_le (by norm_num) (min_le_right q 255)
        rw [hc, pyInt_of_nonneg _ h0]
        constructor
        · exact Int.floor_nonneg.mpr h0
        · calc ⌊max 0 (min q 255)⌋ ≤ ⌊(255 : ℚ)⌋ := Int.floor_le_floor h255
            _ = 255 := floor_255
  · intro h
    rw [h]
    rfl
  · intro q hq
    subst hq
    have hc : dmx_clamp (PyFloat.val q) = pyInt (max 0 (min q 255)) := rfl
    refine ⟨?_, ?_, ?_⟩
    · intro hneg
      rw [hc, min_eq_left (by linarith), max_eq_left (le_of_lt hneg)]
      rw [pyInt_of_nonneg _ (le_refl 0)]
      norm_num
    · intro hbig
      rw [hc, min_eq_right (le_of_lt hbig), max_eq_right (by norm_num)]
      rw [pyInt_of_nonneg _ (by norm_num), floor_255]
    · intro h0 h255
      rw [hc, min_eq_left h255, max_eq_right h0]

/-- Witness for C10 at concrete inputs: an overflowing value clamps to
255, NaN clamps to 0, a negative value clamps to 0. -/
theorem C10_dmx_clamp_total_witness :
    dmx_clamp (PyFloat.val 300) = 255 ∧ dmx_clamp PyFloat.nan = 0
      ∧ dmx_clamp (PyFloat.val (-7)) = 0 :=
  ⟨((C10_dmx_clamp_total (PyFloat.val 300)).2.2 300 rfl).2.1 (by norm_num),
   (C10_dmx_clamp_total PyFloat.nan).2.1 rfl,
   ((C10_dmx_clamp_total (PyFloat.val (-7))).2.2 (-7) rfl).1 (by norm_num)⟩

/-- C9: for a hype deploy recorded at time `T` and a status query at time
`T + e`, the status is `{active := true, remaining := 8 - e}` whenever
`e < 8`, and `{active := false, remaining := 0}` whenever `e ≥ 8`; the
query is a pure function of the recorded trigger time and the query time,
so repeated queries at the same time agree. -/
theorem C9_hype_status_window (T e : ℚ) :
    (e < 8 → get_hype_status T (T + e) = { active := true, remaining := 8 - e })
    ∧ (8 ≤ e → get_hype_status T (T + e) = { active := false, remaining := 0 }) := by
  have he : T + e - T = e := by ring
  constructor
  · intro h
    rw [get_hype_status]
    simp only [he]
    rw [show HYPE_DURATION = 8 from rfl, if_pos h]
  · intro h
    rw [get_hype_status]
    simp only [he]
    rw [show HYPE_DURATION = 8 from rfl, if_neg (not_lt.mpr h)]

/-- Witness for C9 at the spec's concrete probe points: 7.9 s after the
trigger the window is active with 0.1 s remaining, 8.1 s after it is
inactive. -/
theorem C9_hype_status_window_witness :
    get_hype_status 0 (0 + 79/10) = { active := true, remaining := 8 - 79/10 }
    ∧ get_hype_status 0 (0 + 81/10) = { active := false, remaining := 0 } :=
  ⟨(C9_hype_status_window 0 (79/10)).1 (by norm_num),
   (C9_hype_status_window 0 (81/10)).2 (by norm_num)⟩

/-- C5: the group at index `idx` receives `InterpreterArgs` with hype
`HYPE_BUCKETS[idx mod 3]` where `HYPE_BUCKETS = [10, 40, 70]`,
`allow_rainbows` from the active theme, and hype bounds `[0, 100]` with the
hype limiter disabled, `[max(0, hype-30), min(100, hype+30)]` from the live
hype scalar with it enabled. -/
theorem C5_generation_args {G M : Type} (gi : M → G → InterpreterArgs → Interp)
    (st : StateModel M) (gs : List G) (idx : Nat) (g : G)
    (hg : gs[idx]? = some g) :
    (generate_interpreters gi st gs)[idx]?
      = some (gi st.mode g
          { hype := HYPE_BUCKETS.getD (idx % 3) 0
            allow_rainbows := st.allow_rainbows
            hype_min := if st.hype_limiter then max 0 (st.hype - 30) else 0
            hype_max := if st.hype_limiter then min 100 (st.hype + 30) else 100 })
    ∧ HYPE_BUCKETS = [10, 40, 70] := by
  refine ⟨?_, rfl⟩
  have hargs : genArgs st idx
      = { hype := HYPE_BUCKETS.getD (idx % 3) 0
          allow_rainbows := st.allow_rainbows
          hype_min := if st.hype_limiter then max 0 (st.hype - 30) else 0
          hype_max := if st.hype_limiter then min 100 (st.hype + 30) else 100 } := by
    rw [genArgs]
    cases hL : st.hype_limiter <;> simp [hL, HYPE_BUCKETS]
  rw [getElem?_generate_interpreters, hg]
  show some (gi st.mode g (genArgs st idx)) = _
  rw [hargs]

/-- Witness for C5: a one-group patch receives the bucket-10 hype and the
full `[0, 100]` bracket (limiter off). -/
theorem C5_generation_args_witness :
    (generate_interpreters giSwitch stU [()])[0]?
      = some (giSwitch stU.mode ()
          { hype := HYPE_BUCKETS.getD (0 % 3) 0
            allow_rainbows := stU.allow_rainbows
            hype_min := if stU.hype_limiter then max 0 (stU.hype - 30) else 0
            hype_max := if stU.hype_limiter then min 100 (stU.hype + 30) else 100 })
    ∧ HYPE_BUCKETS = [10, 40, 70] :=
  C5_generation_args giSwitch stU [()] 0 () rfl

/-- C6: `shift_interpreter` on a non-empty interpreter list succeeds,
replaces exactly the entry at the drawn index (every index is reachable by
some draw), leaves every other entry unchanged, and builds the replacement
from the current live hype value and the bracket recomputed from it. -/
theorem C6_single_group_reshuffle {G M : Type}
    (gi : M → G → InterpreterArgs → Interp) (st : StateModel M)
    (gs : List G) (l : List Interp) (r : Nat)
    (hne : l ≠ []) (hlen : gs.length = l.length) :
    ∃ g l', gs[r % l.length]? = some g
      ∧ shift_interpreter gi st gs l r = some l'
      ∧ l'[r % l.length]? = some (gi st.mode g
          { hype := st.hype
            allow_rainbows := st.allow_rainbows
            hype_min := if st.hype_limiter then max 0 (st.hype - 30) else 0
            hype_max := if st.hype_limiter then min 100 (st.hype + 30) else 100 })
      ∧ ∀ j : Nat, j ≠ r % l.length → l'[j]? = l[j]? := by
  obtain ⟨g, hg, hsome⟩ := shift_interpreter_spec gi st gs l r hne hlen
  have hargs : shiftArgs st
      = { hype := st.hype
          allow_rainbows := st.allow_rainbows
          hype_min := if st.hype_limiter then max 0 (st.hype - 30) else 0
          hype_max := if st.hype_limiter then min 100 (st.hype + 30) else 100 } := by
    rw [shiftArgs]
    cases hL : st.hype_limiter <;> simp [hL]
  have hidx : r % l.length < l.length := Nat.mod_lt _ (List.length_pos.mpr hne)
  refine ⟨g, _, hg, hsome, ?_, ?_⟩
  · rw [List.getElem?_set_eq_of_lt _ hidx, hargs]
  · intro j hj
    exact List.getElem?_set_ne (Ne.symm hj)

/-- Witness for C6 on a one-element interpreter list. -/
theorem C6_single_group_reshuffle_witness :
    ∃ g l', ([()] : List Unit)[0 % [giPlain () () (shiftArgs stU)].length]? = some g
      ∧ shift_interpreter giSwitch stU [()] [giPlain () () (shiftArgs stU)] 0 = some l'
      ∧ l'[0 % [giPlain () () (shiftArgs stU)].length]? = some (giSwitch stU.mode g
          { hype := stU.hype
            allow_rainbows := stU.allow_rainbows
            hype_min := if stU.hype_limiter then max 0 (stU.hype - 30) else 0
            hype_max := if stU.hype_limiter then min 100 (stU.hype + 30) else 100 })
      ∧ ∀ j : Nat, j ≠ 0 % [giPlain () () (shiftArgs stU)].length →
          l'[j]? = [giPlain () () (shiftArgs stU)][j]? :=
  C6_single_group_reshuffle giSwitch stU [()] [giPlain () () (shiftArgs stU)] 0
    (List.cons_ne_nil _ _) rfl

/-- C3: after `generate_interpreters` there is exactly one interpreter per
fixture group; `shift_lighting_only` re-establishes this; and a successful
`shift_interpreter` preserves it. -/
theorem C3_one_interpreter_per_group {G M : Type}
    (gi : M → G → InterpreterArgs → Interp) (st : StateModel M)
    (gs : List G) (now : ℚ) (pick : FrameSignal → Nat) (d : Director G M)
    (l l' : List Interp) (r : Nat) :
    (generate_interpreters gi st gs).length = gs.length
    ∧ (Director.shift_lighting_only gi st now pick d).interpreters.length
        = d.fixture_groups.length
    ∧ (l.length = gs.length → shift_interpreter gi st gs l r = some l' →
        l'.length = gs.length) := by
  refine ⟨length_generate_interpreters gi st gs, ?_, ?_⟩
  · show (ensure_each_signal_is_enabled pick
        (generate_interpreters gi st d.fixture_groups)).length = _
    rw [ensure_length, length_generate_interpreters]
  · intro hl h
    have hne2 : l ≠ [] := by
      intro hnil
      rw [hnil] at h
      simp [shift_interpreter] at h
    obtain ⟨g, hg, hsome⟩ := shift_interpreter_spec gi st gs l r hne2 hl.symm
    rw [hsome] at h
    rw [← Option.some.inj h, List.length_set, hl]

/-- Witness for C3's reshuffle conjunct on a one-group patch. -/
theorem C3_one_interpreter_per_group_witness :
    ([giSwitch stU.mode () (shiftArgs stU)] : List Interp).length
      = ([()] : List Unit).length :=
  (C3_one_interpreter_per_group giSwitch stU [()] 0 (fun _ => 0)
      (Director.init giSwitch stU [()] 0)
      [giPlain () () (shiftArgs stU)] [giSwitch stU.mode () (shiftArgs stU)]
      0).2.2 rfl rfl

/-- Counterexample to C2: after `on_mode_change` (which regenerates the
interpreter list) a signal-switch-capable interpreter exists, yet the
sustained-low signal is covered by none — the coverage-repair scan did not
run. -/
theorem C2_counterexample_mode_change_unrepaired :
    ((Director.on_mode_change giSwitch stU
        (Director.init giSwitch stU [()] 0)).interpreters.any
      (fun i => i.has_signal_switch)) = true
    ∧ coveredb (Director.on_mode_change giSwitch stU
          (Director.init giSwitch stU [()] 0)).interpreters
        FrameSignal.sustained_low = false :=
  ⟨rfl, rfl⟩

/-- C2 as amended: the coverage-repair scan runs only inside the shift
operations.  Initial generation (`__init__`/`generate_all`) and the
mode-change regeneration install the freshly generated interpreter list
as-is, with no repair scan; `shift_lighting_only` (like `shift`) applies
the repair scan to the regenerated list. -/
theorem C2_repair_only_inside_shifts {G M : Type}
    (gi : M → G → InterpreterArgs → Interp) (st : StateModel M)
    (gs : List G) (t0 now : ℚ) (pick : FrameSignal → Nat)
    (d : Director G M) :
    (Director.init gi st gs t0).interpreters = generate_interpreters gi st gs
    ∧ (Director.generate_all gi st d).interpreters
        = generate_interpreters gi st d.fixture_groups
    ∧ (Director.on_mode_change gi st d).interpreters
        = generate_interpreters gi st d.fixture_groups
    ∧ (Director.shift_lighting_only gi st now pick d).interpreters
        = ensure_each_signal_is_enabled pick
            (generate_interpreters gi st d.fixture_groups) :=
  ⟨rfl, rfl, rfl, rfl⟩

/-- C1: after a combined shift or a full lighting shift, every signal is
covered by some signal-switch-capable interpreter, provided at least one
interpreter carries that capability; and with no capable interpreter at
all the guarantor is a no-op (so it cannot fail). -/
theorem C1_shift_coverage {G M : Type}
    (gi : M → G → InterpreterArgs → Interp) (st : StateModel M) (now : ℚ)
    (rnd : ShiftRand) (d : Director G M) (d' : Director G M)
    (h : Director.shift gi st now rnd d = some d'
         ∨ d' = Director.shift_lighting_only gi st now rnd.pick d) :
    (d'.interpreters.any (fun i => i.has_signal_switch) = true →
        ∀ s : FrameSignal, coveredb d'.interpreters s = true)
    ∧ (∀ l : List Interp, l.any (fun i => i.has_signal_switch) = false →
        ensure_each_signal_is_enabled rnd.pick l = l) := by
  refine ⟨?_, fun l hl => ensure_noop rnd.pick l hl⟩
  have key : ∃ l0, d'.interpreters
      = ensure_each_signal_is_enabled rnd.pick l0 := by
    rcases h with h | h
    · rw [Director.shift] at h
      split at h
      · exact Option.noConfusion h
      next l hsi =>
        refine ⟨l, ?_⟩
        rw [← Option.some.inj h]
    · refine ⟨generate_interpreters gi st d.fixture_groups, ?_⟩
      rw [h]
      rfl
  obtain ⟨l0, hl0⟩ := key
  intro hany s
  rw [hl0] at hany ⊢
  rw [ensure_any_switch] at hany
  exact ensure_covers rnd.pick l0 hany s

/-- Witness for C1: a full lighting shift over a one-group patch with a
switch-capable interpreter leaves the sustained-low signal covered. -/
theorem C1_shift_coverage_witness :
    coveredb (Director.shift_lighting_only giSwitch stU 0 (fun _ => 0)
        (Director.init giSwitch stU [()] 0)).interpreters
      FrameSignal.sustained_low = true :=
  (C1_shift_coverage giSwitch stU 0 rnd0 (Director.init giSwitch stU [()] 0)
      (Director.shift_lighting_only giSwitch stU 0 (fun _ => 0)
        (Director.init giSwitch stU [()] 0))
      (Or.inr rfl)).1 rfl FrameSignal.sustained_low

/-- C4: in a well-formed Director state (warmup no longer than the shift
period, start time not after the last shift time, non-empty interpreter
list matching the groups), `Director.step` performs the scheduled combined
shift exactly when more than 60 s have elapsed since `last_shift_time` and
the sustained-low intensity is below 0.2; firing increments `shift_count`
exactly once and resets `last_shift_time` to the current time, and
otherwise both fields are untouched. -/
theorem C4_scheduled_shift_gate {G M : Type}
    (gi : M → G → InterpreterArgs → Interp) (st : StateModel M)
    (W now : ℚ) (rnd : ShiftRand) (d : Director G M) (f : Frame)
    (hW1 : 1 ≤ W) (hW60 : W ≤ SHIFT_AFTER)
    (hst : d.start_time ≤ d.last_shift_time)
    (hne : d.interpreters ≠ [])
    (hlen : d.fixture_groups.length = d.interpreters.length) :
    ((SHIFT_AFTER < now - d.last_shift_time
        ∧ f FrameSignal.sustained_low < 1/5) →
      ∃ d', Director.step gi st W now rnd d f = some d'
        ∧ d'.shift_count = d.shift_count + 1 ∧ d'.last_shift_time = now)
    ∧ (¬(SHIFT_AFTER < now - d.last_shift_time
        ∧ f FrameSignal.sustained_low < 1/5) →
      Director.step gi st W now rnd d f
        = some { d with last_frame := some f }) := by
  have hgate := step_gate_iff W now d f hW1 hW60 hst
  constructor
  · intro hraw
    have hC := hgate.mpr hraw
    obtain ⟨g, hg, hshift⟩ := shift_spec gi st now rnd
      { d with last_frame := some f } hne hlen
    refine ⟨{ d with
        last_frame := some f
        interpreters := ensure_each_signal_is_enabled rnd.pick
          (d.interpreters.set (rnd.evict % d.interpreters.length)
            (gi st.mode g (shiftArgs st)))
        last_shift_time := now
        shift_count := d.shift_count + 1 }, ?_, rfl, rfl⟩
    rw [Director.step, if_pos hC]
    exact hshift
  · intro hraw
    have hC : ¬(SHIFT_AFTER < now - d.last_shift_time ∧
        frameScale f (warmupPhase W now d.start_time) FrameSignal.sustained_low
          < 1/5) :=
      fun hc => hraw (hgate.mp hc)
    rw [Director.step, if_neg hC]

/-- Witness for C4: with the default 1 s warmup, 61 s elapsed and a silent
sustained-low signal, the scheduled shift fires on this tick. -/
theorem C4_scheduled_shift_gate_witness :
    ∃ d', Director.step giSwitch stU 1 61 rnd0
        (Director.init giSwitch stU [()] 0) fZero = some d'
      ∧ d'.shift_count = (Director.init giSwitch stU [()] 0).shift_count + 1
      ∧ d'.last_shift_time = 61 :=
  (C4_scheduled_shift_gate giSwitch stU 1 61 rnd0
      (Director.init giSwitch stU [()] 0) fZero
      (by norm_num) (by norm_num [SHIFT_AFTER]) (le_refl 0)
      (List.cons_ne_nil _ _) rfl).1
    ⟨by norm_num [Director.init, SHIFT_AFTER], by norm_num [fZero]⟩

/-- C7 (bug evidence): with an empty fixture-group list,
`generate_interpreters` does yield an empty interpreter list and a
non-shift tick of `step` is a no-op, but on the tick where the
scheduled-shift condition holds `step` fails (modelled `none`), because
`shift_interpreter` executes `random.randint(0, -1)`, which raises
`ValueError` — `step` does not treat zero interpreters as a no-op on that
tick. -/
theorem C7_empty_patch_step_raises :
    generate_interpreters giPlain stU ([] : List Unit) = []
    ∧ Director.step giPlain stU 1 61 rnd0
        (Director.init giPlain stU ([] : List Unit) 0) fZero = none
    ∧ Director.step giPlain stU 1 0 rnd0
        (Director.init giPlain stU ([] : List Unit) 0) fZero
      = some { Director.init giPlain stU ([] : List Unit) 0 with
                last_frame := some fZero } := by
  refine ⟨rfl, ?_, ?_⟩
  · have hcond : SHIFT_AFTER < (61:ℚ)
          - (Director.init giPlain stU ([] : List Unit) 0).last_shift_time
        ∧ frameScale fZero (warmupPhase 1 61
            (Director.init giPlain stU ([] : List Unit) 0).start_time)
          FrameSignal.sustained_low < 1/5 := by
      constructor
      · norm_num [Director.init, SHIFT_AFTER]
      · norm_num [frameScale, fZero]
    rw [Director.step, if_pos hcond]
    rfl
  · have hcond : ¬(SHIFT_AFTER < (0:ℚ)
          - (Director.init giPlain stU ([] : List Unit) 0).last_shift_time
        ∧ frameScale fZero (warmupPhase 1 0
            (Director.init giPlain stU ([] : List Unit) 0).start_time)
          FrameSignal.sustained_low < 1/5) := by
      intro hc
      have h1 := hc.1
      norm_num [Director.init, SHIFT_AFTER] at h1
    rw [Director.step, if_neg hcond]

/-- C8 (bug evidence): `Director.__init__` never assigns
`self.mode_machine`, no other code in the repository assigns it, and
`step` never touches it; so even after a successful `step` has recorded a
`last_frame`, `Director.deploy_hype` fails (modelled `none`, the
`AttributeError` on reading `self.mode_machine`) instead of forwarding the
frame to a pulse handler. -/
theorem C8_deploy_hype_attribute_error {G M : Type}
    (gi : M → G → InterpreterArgs → Interp) (st : StateModel M)
    (W now t0 : ℚ) (rnd : ShiftRand) (gs : List G) (f : Frame)
    (d' : Director G M)
    (h : Director.step gi st W now rnd (Director.init gi st gs t0) f
          = some d') :
    Director.deploy_hype d' = none := by
  have hmm : d'.mode_machine = none := by
    rw [mode_machine_step gi st W now rnd _ f d' h]
    rfl
  exact deploy_hype_eq_none_of_no_machine d' hmm

/-- Witness for C8: one concrete `step` succeeds (recording the frame) and
the subsequent `deploy_hype` still fails. -/
theorem C8_deploy_hype_attribute_error_witness :
    Director.deploy_hype
      ({ Director.init giPlain stU ([] : List Unit) 0 with
        last_frame := some fZero } : Director Unit Unit) = none :=
  C8_deploy_hype_attribute_error giPlain stU 1 0 0 rnd0 [] fZero _
    (by
      have hcond : ¬(SHIFT_AFTER < (0:ℚ)
            - (Director.init giPlain stU ([] : List Unit) 0).last_shift_time
          ∧ frameScale fZero (warmupPhase 1 0
              (Director.init giPlain stU ([] : List Unit) 0).start_time)
            FrameSignal.sustained_low < 1/5) := by
        intro hc
        have h1 := hc.1
        norm_num [Director.init, SHIFT_AFTER] at h1
      rw [Director.step, if_neg hcond])
